import Mathlib

/-!
Verification development for the csv2geojson converter (`main.py`).

The program converts survey-style CSV point files and DXF CAD drawings into
GeoJSON FeatureCollections, reprojecting coordinates from a source CRS to
WGS84.  This file gives a shallow embedding of the two conversion functions
`csv_to_geojson` and `dxf_to_geojson` and proves properties of them.

Modelling conventions:
* Coordinates are rationals (`ℚ`); the Python code works with machine floats,
  but every claim checked here is about data flow (grouping, ordering,
  closure, axis order, error propagation), never about rounding, so the exact
  arithmetic carrier is irrelevant.
* A CSV file is a list of physical lines, each a list of textual fields.
  `pandas.read_csv` consumes the first physical line as a column header; the
  relabelling `df.columns = ["X","Y","Z","R","G","B"]` makes column access
  positional, embedded here as positional field access.
* The external pyproj library is modelled at its interface: a CRS registry is
  a function `String → Option (Pt → Pt)`; `Transformer.from_crs(epsg, 4326)`
  yields the transform in authority axis order, which for the target
  EPSG:4326 is (latitude, longitude); `always_xy=True` wraps the same
  transform to yield (longitude, latitude).  Resolution failure is `none`
  (pyproj raises `CRSError`).
* The external ezdxf library is modelled at its interface: `readfile` either
  yields the model-space POLYLINE entities (layer name plus ordered vertex
  list) or fails with one of two distinct errors (`IOError`,
  `DXFStructureError`); the geo proxy maps an entity's vertices in
  entity-defined order into a polygon ring, closing the ring when the vertex
  list is not already closed, as the GeoJSON polygon interface requires.
* Python exceptions are modelled with `Except`: the writing of the output
  file is the last step of each conversion, so an error value means the
  conversion aborted with no file written, exactly as in the source.
-/

/-- A planar point: either projected (X, Y) or geographic coordinates. -/
abbrev Pt := ℚ × ℚ

/-- One CSV data row: the list of its textual fields. -/
abbrev Row := List String

/-- Insertion-ordered dictionary from loop identifiers to vertex lists,
matching Python `dict` semantics. -/
abbrev Dict := List (String × List Pt)

/-- A CRS registry: resolves an identifier to the transform towards WGS84 in
authority axis order, or fails.  Models `pyproj.Transformer.from_crs`. -/
abbrev CrsResolve := String → Option (Pt → Pt)

/-- Tests whether the first list is an initial segment of the second. -/
def leadsWith : List Char → List Char → Bool
  | [], _ => true
  | _ :: _, [] => false
  | p :: ps, c :: cs => p == c && leadsWith ps cs

/-- Fuel-driven worker for `pySplit`: scans left to right, splitting at each
non-overlapping occurrence of the (non-empty) pattern.  The fuel is an upper
bound on the number of characters still to scan, which keeps the recursion
structural. -/
def pySplitLoop (pat : List Char) : Nat → List Char → List Char → List (List Char)
  | 0, rest, acc => [acc.reverse ++ rest]
  | fuel + 1, s, acc =>
    match s with
    | [] => [acc.reverse]
    | c :: cs =>
      if leadsWith pat (c :: cs) then
        acc.reverse :: pySplitLoop pat fuel (List.drop (pat.length - 1) cs) []
      else pySplitLoop pat fuel cs (c :: acc)

/-- Python's `s.split(pat)` for a non-empty separator: the segments of `s`
between non-overlapping left-to-right occurrences of `pat` (always at least
one segment). -/
def pySplit (s pat : String) : List String :=
  (pySplitLoop pat.data s.data.length s.data []).map String.mk

/-- `occurs pat s` is true when `pat` occurs as a substring of `s`; embeds
Python's `in` / `pandas.Series.str.contains` with a literal pattern. -/
def occurs (pat s : String) : Bool := (pySplit s pat).length != 1

/-- Row classification from `main.py` line 36:
`df.iloc[i].str.contains("# Object:").any()` — true when ANY field of the row
contains the marker substring. -/
def isMarkerRow (r : Row) : Bool := r.any (fun f => occurs "# Object:" f)

/-- The relabelled `X` column (first positional field) of a row. -/
def fieldX (r : Row) : String := r.getD 0 ""

/-- The relabelled `Y` column (second positional field) of a row. -/
def fieldY (r : Row) : String := r.getD 1 ""

/-- Loop identifier derivation from `main.py` line 37:
`df["X"].iloc[i].split("/")[-1]` — the text after the last `/` of the first
field. -/
def loopIdOf (r : Row) : String := (pySplit (fieldX r) "/").getLastD ""

/-- Value of a digit list read in base 10. -/
def digitsToNat (cs : List Char) : Nat :=
  cs.foldl (fun a c => a * 10 + (c.toNat - 48)) 0

/-- Embeds Python's `float(s)` on decimal literals: optional sign, then
digits with at most one decimal point; anything else fails with
`ValueError` (modelled as `none`). -/
def pyFloat (s : String) : Option ℚ :=
  let signed : ℚ × List Char :=
    match s.data with
    | '-' :: rest => (-1, rest)
    | '+' :: rest => (1, rest)
    | cs => (1, cs)
  match pySplit (String.mk signed.2) "." with
  | [ip] =>
      if ip.data ≠ [] ∧ ip.data.all Char.isDigit then
        some (signed.1 * (digitsToNat ip.data : ℚ))
      else none
  | [ip, fp] =>
      if (ip.data ≠ [] ∨ fp.data ≠ []) ∧ ip.data.all Char.isDigit ∧
          fp.data.all Char.isDigit then
        some (signed.1 *
          ((digitsToNat ip.data : ℚ) +
            (digitsToNat fp.data : ℚ) / (10 ^ fp.data.length)))
      else none
  | _ => none

/-- Python `d[k] = v` on a `dict`: replace the value in place at the key's
existing position when present, append at the end otherwise; insertion order
is preserved.  (Keys are unique in every dictionary this program builds, so
replacing the first occurrence is the general dict semantics.) -/
def dictSet : Dict → String → List Pt → Dict
  | [], k, v => [(k, v)]
  | p :: d, k, v => if p.1 == k then (k, v) :: d else p :: dictSet d k v

/-- Python `d[k]` on a `dict`, as an `Option`. -/
def dictGet (d : Dict) (k : String) : Option (List Pt) :=
  (d.find? (fun p => p.1 == k)).map (fun p => p.2)

/-- Python exceptions that can escape `csv_to_geojson`. -/
inductive Err where
  /-- `NameError`: `loop_id` referenced before any marker row defined it. -/
  | nameError
  /-- `ValueError`: `float()` applied to a non-numeric field. -/
  | valueError
  /-- `pyproj.exceptions.CRSError`: unresolvable CRS identifier. -/
  | crsError
  /-- `IndexError`: `value[0]` on an empty loop vertex list. -/
  | indexError
  /-- `KeyError`: dictionary lookup of an absent loop identifier. -/
  | keyError
  deriving DecidableEq

/-- The spec's `MalformedInput` error class (§7): vertex row before any
marker, or non-numeric coordinate field. -/
def isMalformedInput : Err → Bool
  | .nameError => true
  | .valueError => true
  | _ => false

/-- Mutable state of the CSV row scan (`main.py` lines 35-47): the implicit
`loop_id` variable, `cad_dict`, and the identifiers of the features appended
to the geojson object so far. -/
structure ScanSt where
  cur : Option String
  cad : Dict
  featIds : List String
  deriving DecidableEq

/-- Initial scan state: `loop_id` unbound, both accumulators empty. -/
def initSt : ScanSt := ⟨none, [], []⟩

/-- One iteration of the CSV scan loop (`main.py` lines 36-47). -/
def scanRow (st : ScanSt) (r : Row) : Except Err ScanSt :=
  if isMarkerRow r then
    let lid := loopIdOf r
    .ok ⟨some lid, dictSet st.cad lid [], st.featIds ++ [lid]⟩
  else
    match st.cur with
    | none => .error .nameError
    | some k =>
      match dictGet st.cad k with
      | none => .error .keyError
      | some v =>
        match pyFloat (fieldX r) with
        | none => .error .valueError
        | some x =>
          match pyFloat (fieldY r) with
          | none => .error .valueError
          | some y => .ok ⟨some k, dictSet st.cad k (v ++ [(x, y)]), st.featIds⟩

/-- The CSV scan loop over the selected rows. -/
def scanRows : ScanSt → List Row → Except Err ScanSt
  | st, [] => .ok st
  | st, r :: rs =>
    match scanRow st r with
    | .error e => .error e
    | .ok st2 => scanRows st2 rs

/-- The rows examined by the CSV scan: `pandas.read_csv` consumes the first
physical line as the header, and `range(0, len(df) - 1)` skips the last data
row. -/
def csvScanned (lines : List Row) : List Row :=
  let df := lines.drop 1
  df.take (df.length - 1)

/-- The pyproj transform as called on the CSV path (`main.py` line 53):
no `always_xy`, so the result is in authority axis order, (lat, lon) for
EPSG:4326. -/
def transformAuthority (T : Pt → Pt) (p : Pt) : Pt := T p

/-- The pyproj transform as called on the DXF path (`main.py` line 106):
`always_xy=True` forces (lon, lat) output, the swap of authority order. -/
def transformAlwaysXY (T : Pt → Pt) (p : Pt) : Pt := ((T p).2, (T p).1)

/-- Reprojection of one CSV loop (`main.py` lines 52-54):
`lat, lng = transformer.transform(...)` then append `[lng, lat]`. -/
def csvTransformLoop (T : Pt → Pt) (v : List Pt) : List Pt :=
  v.map (fun c =>
    ((transformAuthority T c).2, (transformAuthority T c).1))

/-- Reprojection of one DXF polyline's vertices (`main.py` line 109): the
always-xy transform output is used directly as (x, y). -/
def dxfTransformVerts (T : Pt → Pt) (v : List Pt) : List Pt :=
  v.map (fun p => transformAlwaysXY T p)

/-- Reprojection pass over the loop dictionary (`main.py` lines 50-54). -/
def transPhase (T : Pt → Pt) (d : Dict) : Dict :=
  d.map (fun p => (p.1, csvTransformLoop T p.2))

/-- Ring closure of one loop (`main.py` line 58):
`value.append(value[0])`; `IndexError` on an empty list. -/
def closeLoop : List Pt → Except Err (List Pt)
  | [] => .error .indexError
  | h :: t => .ok ((h :: t) ++ [h])

/-- Ring closure pass over the loop dictionary (`main.py` lines 57-58). -/
def closePhase : Dict → Except Err Dict
  | [] => .ok []
  | p :: d =>
    match closeLoop p.2 with
    | .error e => .error e
    | .ok v =>
      match closePhase d with
      | .error e => .error e
      | .ok d2 => .ok ((p.1, v) :: d2)

/-- Winding reversal pass (`main.py` lines 61-62): `value[::-1]`. -/
def revPhase (d : Dict) : Dict := d.map (fun p => (p.1, p.2.reverse))

/-- One emitted GeoJSON feature: `properties.id` and the single outer ring of
its Polygon geometry. -/
structure Feature where
  id : String
  ring : List Pt
  deriving DecidableEq

/-- Final assembly (`main.py` lines 65-67): each appended feature receives
`trans_cad_dict[key_id]` as its ring, in feature-append order. -/
def assemble (d : Dict) : List String → Except Err (List Feature)
  | [] => .ok []
  | k :: ks =>
    match dictGet d k with
    | none => .error .keyError
    | some v =>
      match assemble d ks with
      | .error e => .error e
      | .ok fs => .ok (⟨k, v⟩ :: fs)

/-- Python `file.split(pat)[0]`. -/
def fileBase (file pat : String) : String := (pySplit file pat).headD ""

/-- Result of a completed conversion: the FeatureCollection, the path of the
file written beside the input, and how many times
`Transformer.from_crs` was invoked during the call. -/
structure Conv where
  features : List Feature
  path : String
  fromCrsCalls : Nat
  deriving DecidableEq

/-- Shallow embedding of `csv_to_geojson` (`main.py` lines 24-73).  The file
content is given as the list of its physical lines; the CRS registry stands
for pyproj.  All steps occur in source order; the file write is last, so an
error implies no file was written. -/
def csv_to_geojson (resolve : CrsResolve) (csv_file epsg : String)
    (lines : List Row) : Except Err Conv :=
  let file_name := fileBase csv_file ".csv"
  match resolve epsg with
  | none => .error .crsError
  | some T =>
    match scanRows initSt (csvScanned lines) with
    | .error e => .error e
    | .ok st =>
      match closePhase (transPhase T st.cad) with
      | .error e => .error e
      | .ok closed =>
        match assemble (revPhase closed) st.featIds with
        | .error e => .error e
        | .ok fs => .ok ⟨fs, file_name ++ ".json", 1⟩

/-- The file writes performed by a CSV conversion: `json.dump` runs only
after every processing step succeeded. -/
def csvWrites : Except Err Conv → List (String × List Feature)
  | .ok c => [(c.path, c.features)]
  | .error _ => []

/-- The features of a CSV conversion result (empty when it failed). -/
def featsOf : Except Err Conv → List Feature
  | .ok c => c.features
  | .error _ => []

/-- The `fromCrsCalls` counter of a completed CSV conversion. -/
def csvCalls? : Except Err Conv → Option Nat
  | .ok c => some c.fromCrsCalls
  | .error _ => none

/-- Outcomes of `ezdxf.readfile`, modelled at the library interface:
the model-space POLYLINE entities, or one of two distinct failures. -/
inductive ReadErr where
  /-- `IOError`: not a DXF file or a generic I/O error. -/
  | ioError
  /-- `ezdxf.DXFStructureError`: invalid or corrupted DXF file. -/
  | structureError
  deriving DecidableEq

/-- A model-space POLYLINE entity: layer name and ordered vertices. -/
structure Polyline where
  layer : String
  vertices : List Pt
  deriving DecidableEq

/-- Typed outcomes of `dxf_to_geojson` failure paths. -/
inductive DxfErr where
  /-- `sys.exit(code)`: typed termination with the given status code. -/
  | exit (code : Nat)
  /-- `pyproj.exceptions.CRSError` from `Transformer.from_crs`. -/
  | crsError
  /-- `IndexError`: layer name without a `%%` token. -/
  | indexError
  deriving DecidableEq

/-- Loop identifier from a DXF layer name (`main.py` line 103):
`layer.split("%%")[1]`; `IndexError` when `%%` is absent. -/
def layerTag (s : String) : Option String := (pySplit s "%%").get? 1

/-- The ezdxf geo proxy's polygon mapping, modelled at the library
interface: vertices are kept in entity-defined order and the ring is closed
by appending the first vertex when the list is not already closed, as the
geo interface requires for polygons. -/
def closeIfOpen : List Pt → List Pt
  | [] => []
  | h :: t => if (h :: t).getLastD h = h then h :: t else (h :: t) ++ [h]

/-- The loop body of `dxf_to_geojson` over model-space polylines
(`main.py` lines 99-118), accumulating features and counting
`Transformer.from_crs` invocations: note that the source constructs the
transformer inside this loop, once per polyline. -/
def dxfLoop (resolve : CrsResolve) (epsg : String) :
    List Polyline → List Feature → Nat → Except DxfErr (List Feature × Nat)
  | [], fs, n => .ok (fs, n)
  | p :: ps, fs, n =>
    match layerTag p.layer with
    | none => .error .indexError
    | some id =>
      match resolve epsg with
      | none => .error .crsError
      | some T =>
        dxfLoop resolve epsg ps
          (fs ++ [⟨id, closeIfOpen (dxfTransformVerts T p.vertices)⟩]) (n + 1)

/-- Result of a completed DXF conversion. -/
structure DxfConv where
  features : List Feature
  path : String
  fromCrsCalls : Nat
  deriving DecidableEq

/-- Shallow embedding of `dxf_to_geojson` (`main.py` lines 79-124).  The
`readResult` argument is the outcome of the external `ezdxf.readfile`; the
two read failures are translated to `sys.exit(1)` / `sys.exit(2)`, i.e. to
typed termination values, before any other work. -/
def dxf_to_geojson (resolve : CrsResolve) (dxf_file epsg : String)
    (readResult : Except ReadErr (List Polyline)) : Except DxfErr DxfConv :=
  let file_name := fileBase dxf_file ".dxf"
  match readResult with
  | .error .ioError => .error (.exit 1)
  | .error .structureError => .error (.exit 2)
  | .ok ps =>
    match dxfLoop resolve epsg ps [] 0 with
    | .error e => .error e
    | .ok res => .ok ⟨res.1, file_name ++ ".json", res.2⟩

/-- The features of a DXF conversion result (empty when it failed). -/
def dxfFeatsOf : Except DxfErr DxfConv → List Feature
  | .ok c => c.features
  | .error _ => []

/-- The `fromCrsCalls` counter of a completed DXF conversion. -/
def dxfCalls? : Except DxfErr DxfConv → Option Nat
  | .ok c => some c.fromCrsCalls
  | .error _ => none

/-- The feature a polyline contributes when its layer tag parses and the CRS
resolves to `T`. -/
def dxfFeatureOf (T : Pt → Pt) (p : Polyline) : Feature :=
  ⟨(layerTag p.layer).getD "", closeIfOpen (dxfTransformVerts T p.vertices)⟩

/-- Well-formedness of the scanned CSV rows, with `seen` recording whether a
marker row has occurred yet: every vertex row is preceded by some marker row
and has numeric X and Y fields, and every marker row is immediately followed
by a vertex row (so no loop is left empty). -/
def validScan : Bool → List Row → Bool
  | _, [] => true
  | seen, r :: rs =>
    if isMarkerRow r then
      (match rs with
       | [] => false
       | r2 :: _ => !isMarkerRow r2) && validScan true rs
    else
      seen && (pyFloat (fieldX r)).isSome && (pyFloat (fieldY r)).isSome &&
        validScan seen rs

/-- The loop-start marker test in the words of the spec (§4.1): the FIRST
textual field contains the marker substring.  Stated only to compare with the
code's any-field test `isMarkerRow`. -/
def specFirstFieldMarker (r : Row) : Bool := occurs "# Object:" (fieldX r)

/-- Every dictionary value is a non-empty vertex list. -/
def AllNE (d : Dict) : Prop := ∀ p ∈ d, p.2 ≠ ([] : List Pt)

/-- Every feature identifier appended so far is a key of `cad_dict`. -/
def KeysFeat (st : ScanSt) : Prop :=
  ∀ id ∈ st.featIds, (dictGet st.cad id).isSome = true

/-- The current loop identifier, when bound, is a key of `cad_dict`. -/
def KeysCur (st : ScanSt) : Prop :=
  ∀ k, st.cur = some k → (dictGet st.cad k).isSome = true

/-- A registry resolving every identifier to the identity transform; used to
instantiate theorems on concrete inputs. -/
def idResolve : CrsResolve := fun _ => some (fun p => p)

/-- A registry resolving no identifier, e.g. for the identifier
`"not-a-code"`. -/
def noResolve : CrsResolve := fun _ => none

/-- A well-formed concrete CSV file: header line, one marker, two vertex
rows, and the trailing sentinel row that the scan skips. -/
def wLines : List Row :=
  [["X", "Y", "Z", "R", "G", "B"],
   ["# Object: path/Loop1", "0", "0", "0", "0", "0"],
   ["1", "2", "0", "0", "0", "0"],
   ["3", "4", "0", "0", "0", "0"],
   ["9", "9", "9", "9", "9", "9"]]

/-- Concrete CSV input whose third data row carries the marker substring in
its third field only: the code classifies it as a marker row, the spec's
first-field reading does not. -/
def c1Lines : List Row :=
  [["X", "Y", "Z", "R", "G", "B"],
   ["# Object: path/Loop1", "0", "0", "0", "0", "0"],
   ["1", "2", "0", "0", "0", "0"],
   ["3", "4", "# Object: x/L2", "0", "0", "0"],
   ["5", "6", "0", "0", "0", "0"],
   ["9", "9", "9", "9", "9", "9"]]

/-- Concrete CSV input whose first scanned row is a vertex row (no marker has
been seen yet). -/
def c5LinesA : List Row :=
  [["X", "Y", "Z", "R", "G", "B"],
   ["1", "2", "0", "0", "0", "0"],
   ["3", "4", "0", "0", "0", "0"],
   ["9", "9", "9", "9", "9", "9"]]

/-- Concrete CSV input with a vertex row whose X field is not numeric. -/
def c5LinesB : List Row :=
  [["X", "Y", "Z", "R", "G", "B"],
   ["# Object: path/Loop1", "0", "0", "0", "0", "0"],
   ["x", "2", "0", "0", "0", "0"],
   ["9", "9", "9", "9", "9", "9"]]

/-- A concrete DXF polyline on layer `S%%LoopA`. -/
def c3Poly1 : Polyline := ⟨"S%%LoopA", [(1, 2), (3, 4), (5, 6)]⟩

/-- A second concrete DXF polyline on layer `S%%LoopB`. -/
def c3Poly2 : Polyline := ⟨"S%%LoopB", [(7, 8)]⟩

theorem dictGet_set_self (d : Dict) (k : String) (v : List Pt) :
    dictGet (dictSet d k v) k = some v := by
  induction d with
  | nil => simp [dictSet, dictGet, List.find?]
  | cons p d ih =>
    by_cases h : p.1 = k
    · simp [dictSet, dictGet, List.find?, h]
    · have hb : (p.1 == k) = false := by simp [h]
      simpa [dictSet, dictGet, List.find?, hb] using ih

theorem dictGet_set_ne (d : Dict) {k k2 : String} (v : List Pt) (hne : k2 ≠ k) :
    dictGet (dictSet d k v) k2 = dictGet d k2 := by
  have hkk : (k == k2) = false := by simp [Ne.symm hne]
  induction d with
  | nil => simp [dictSet, dictGet, List.find?, hkk]
  | cons p d ih =>
    by_cases h : p.1 = k
    · have hp2 : (p.1 == k2) = false := by simp [h, Ne.symm hne]
      simp [dictSet, dictGet, List.find?, h, hkk, hp2]
    · have hb : (p.1 == k) = false := by simp [h]
      by_cases h2 : p.1 = k2
      · rw [show dictSet (p :: d) k v = p :: dictSet d k v from by
          simp [dictSet, hb]]
        have hp2 : (p.1 == k2) = true := by simp [h2]
        simp [dictGet, List.find?, hp2]
      · have hp2 : (p.1 == k2) = false := by simp [h2]
        simpa [dictSet, dictGet, List.find?, hb, hp2] using ih

theorem mem_dictSet {d : Dict} {k : String} {v : List Pt} {q : String × List Pt}
    (h : q ∈ dictSet d k v) : q = (k, v) ∨ q ∈ d := by
  induction d with
  | nil => simp [dictSet] at h; simp [h]
  | cons p d ih =>
    by_cases hp : p.1 = k
    · simp only [dictSet, hp, beq_self_eq_true, if_true, List.mem_cons] at h
      rcases h with h | h
      · exact Or.inl h
      · exact Or.inr (List.mem_cons_of_mem _ h)
    · have hb : (p.1 == k) = false := by simp [hp]
      simp only [dictSet, hb, Bool.false_eq_true, if_false, List.mem_cons] at h
      rcases h with h | h
      · exact Or.inr (by simp [h])
      · rcases ih h with h2 | h2
        · exact Or.inl h2
        · exact Or.inr (List.mem_cons_of_mem _ h2)

theorem dictSet_dictSet (d : Dict) (k : String) (v w : List Pt) :
    dictSet (dictSet d k v) k w = dictSet d k w := by
  induction d with
  | nil => simp [dictSet]
  | cons p d ih =>
    by_cases h : p.1 = k
    · simp [dictSet, h]
    · have hb : (p.1 == k) = false := by simp [h]
      simp [dictSet, hb, ih]

theorem dictGet_mem {d : Dict} {k : String} {v : List Pt}
    (h : dictGet d k = some v) : (k, v) ∈ d := by
  unfold dictGet at h
  cases hf : d.find? (fun p => p.1 == k) with
  | none => rw [hf] at h; simp at h
  | some q =>
    rw [hf] at h
    simp only [Option.map_some'] at h
    have hq : (q.1 == k) = true := by
      have := List.find?_some hf
      simpa using this
    have hm : q ∈ d := List.mem_of_find?_eq_some hf
    have h1 : q.1 = k := by simpa using hq
    have : q = (k, v) := by
      cases q with
      | mk a b => simp at h h1; simp [h1, h]
    rw [← this]
    exact hm

theorem scanRows_append (l1 l2 : List Row) (st : ScanSt) :
    scanRows st (l1 ++ l2) =
      match scanRows st l1 with
      | .error e => .error e
      | .ok st2 => scanRows st2 l2 := by
  induction l1 generalizing st with
  | nil => simp [scanRows]
  | cons r rs ih =>
    simp only [List.cons_append, scanRows]
    cases scanRow st r with
    | error e => rfl
    | ok st2 => exact ih st2

theorem dictGet_mapVals (f : List Pt → List Pt) (d : Dict) (k : String) :
    dictGet (d.map (fun p => (p.1, f p.2))) k = (dictGet d k).map f := by
  induction d with
  | nil => simp [dictGet, List.find?]
  | cons p d ih =>
    by_cases h : p.1 = k
    · have hb : (p.1 == k) = true := by simp [h]
      simp [dictGet, List.find?, hb]
    · have hb : (p.1 == k) = false := by simp [h]
      simpa [dictGet, List.find?, hb] using ih

theorem dictGet_transPhase (T : Pt → Pt) (d : Dict) (k : String) :
    dictGet (transPhase T d) k = (dictGet d k).map (csvTransformLoop T) :=
  dictGet_mapVals (csvTransformLoop T) d k

theorem dictGet_revPhase (d : Dict) (k : String) :
    dictGet (revPhase d) k = (dictGet d k).map List.reverse :=
  dictGet_mapVals List.reverse d k

theorem mem_mapVals {f : List Pt → List Pt} {d : Dict} {q : String × List Pt}
    (h : q ∈ d.map (fun p => (p.1, f p.2))) :
    ∃ v, (q.1, v) ∈ d ∧ q.2 = f v := by
  rcases List.mem_map.mp h with ⟨p, hp, hq⟩
  refine ⟨p.2, ?_, ?_⟩
  · rw [← hq]; simpa using hp
  · rw [← hq]

theorem closeLoop_ok {l v : List Pt} (h : closeLoop l = .ok v) :
    l ≠ [] ∧ v = l ++ l.take 1 := by
  cases l with
  | nil => simp [closeLoop] at h
  | cons h0 t =>
    refine ⟨by simp, ?_⟩
    simp only [closeLoop, Except.ok.injEq] at h
    simp [← h]

theorem closePhase_ok_mem {d d2 : Dict} (h : closePhase d = .ok d2) :
    ∀ q ∈ d2, ∃ w, w ≠ ([] : List Pt) ∧ q.2 = w ++ w.take 1 ∧ (q.1, w) ∈ d := by
  induction d generalizing d2 with
  | nil =>
    simp only [closePhase, Except.ok.injEq] at h
    subst h; simp
  | cons p d ih =>
    unfold closePhase at h
    cases hcl : closeLoop p.2 with
    | error e => rw [hcl] at h; simp at h
    | ok v =>
      rw [hcl] at h
      cases hcp : closePhase d with
      | error e => rw [hcp] at h; simp at h
      | ok d3 =>
        rw [hcp] at h
        simp only [Except.ok.injEq] at h
        subst h
        intro q hq
        rcases List.mem_cons.mp hq with rfl | hq2
        · obtain ⟨hne, hv⟩ := closeLoop_ok hcl
          exact ⟨p.2, hne, hv, by simp⟩
        · obtain ⟨w, hw1, hw2, hw3⟩ := ih hcp q hq2
          exact ⟨w, hw1, hw2, List.mem_cons_of_mem _ hw3⟩

theorem closePhase_ok_of_allNE {d : Dict} (h : AllNE d) :
    ∃ d2, closePhase d = .ok d2 := by
  induction d with
  | nil => exact ⟨[], rfl⟩
  | cons p d ih =>
    have hp : p.2 ≠ [] := h p (List.mem_cons_self _ _)
    obtain ⟨d2, hd2⟩ := ih (fun q hq => h q (List.mem_cons_of_mem _ hq))
    cases hv : p.2 with
    | nil => exact absurd hv hp
    | cons h0 t =>
      exact ⟨(p.1, (h0 :: t) ++ [h0]) :: d2, by
        simp [closePhase, hv, closeLoop, hd2]⟩

theorem dictGet_closePhase {d d2 : Dict} (h : closePhase d = .ok d2) (k : String) :
    dictGet d2 k = (dictGet d k).map (fun v => v ++ v.take 1) := by
  induction d generalizing d2 with
  | nil =>
    simp only [closePhase, Except.ok.injEq] at h
    subst h; simp [dictGet, List.find?]
  | cons p d ih =>
    unfold closePhase at h
    cases hcl : closeLoop p.2 with
    | error e => rw [hcl] at h; simp at h
    | ok v =>
      rw [hcl] at h
      cases hcp : closePhase d with
      | error e => rw [hcp] at h; simp at h
      | ok d3 =>
        rw [hcp] at h
        simp only [Except.ok.injEq] at h
        subst h
        obtain ⟨hne, hv⟩ := closeLoop_ok hcl
        by_cases hk : p.1 = k
        · have hb : (p.1 == k) = true := by simp [hk]
          simp [dictGet, List.find?, hb, hv]
        · have hb : (p.1 == k) = false := by simp [hk]
          simpa [dictGet, List.find?, hb] using ih hcp

theorem assemble_ok_mem {d : Dict} {ids : List String} {fs : List Feature}
    (h : assemble d ids = .ok fs) :
    fs.map Feature.id = ids ∧ ∀ f ∈ fs, dictGet d f.id = some f.ring := by
  induction ids generalizing fs with
  | nil =>
    simp only [assemble, Except.ok.injEq] at h
    subst h; simp
  | cons k ks ih =>
    unfold assemble at h
    cases hg : dictGet d k with
    | none => rw [hg] at h; simp at h
    | some v =>
      rw [hg] at h
      cases ha : assemble d ks with
      | error e => rw [ha] at h; simp at h
      | ok fs2 =>
        rw [ha] at h
        simp only [Except.ok.injEq] at h
        subst h
        obtain ⟨h1, h2⟩ := ih ha
        refine ⟨by simp [h1], ?_⟩
        intro f hf
        rcases List.mem_cons.mp hf with rfl | hf2
        · simpa using hg
        · exact h2 f hf2

theorem assemble_ok_of_keys {d : Dict} {ids : List String}
    (h : ∀ id ∈ ids, (dictGet d id).isSome = true) :
    ∃ fs, assemble d ids = .ok fs := by
  induction ids with
  | nil => exact ⟨[], rfl⟩
  | cons k ks ih =>
    have hk := h k (List.mem_cons_self _ _)
    cases hg : dictGet d k with
    | none => rw [hg] at hk; simp at hk
    | some v =>
      obtain ⟨fs, hfs⟩ := ih (fun id hid => h id (List.mem_cons_of_mem _ hid))
      exact ⟨⟨k, v⟩ :: fs, by simp [assemble, hg, hfs]⟩

theorem csv_ok_inv {resolve : CrsResolve} {csv_file epsg : String}
    {lines : List Row} {out : Conv}
    (h : csv_to_geojson resolve csv_file epsg lines = .ok out) :
    ∃ T st closed,
      resolve epsg = some T ∧
      scanRows initSt (csvScanned lines) = .ok st ∧
      closePhase (transPhase T st.cad) = .ok closed ∧
      assemble (revPhase closed) st.featIds = .ok out.features ∧
      out.fromCrsCalls = 1 := by
  unfold csv_to_geojson at h
  split at h
  · simp at h
  · rename_i T hr
    split at h
    · simp at h
    · rename_i st hs
      split at h
      · simp at h
      · rename_i closed hc
        split at h
        · simp at h
        · rename_i fs ha
          simp only [Except.ok.injEq] at h
          subst h
          exact ⟨T, st, closed, hr, hs, hc, ha, rfl⟩

theorem dxfLoop_ok_count {resolve : CrsResolve} {epsg : String} :
    ∀ (ps : List Polyline) (fs : List Feature) (n : Nat)
      (res : List Feature × Nat),
      dxfLoop resolve epsg ps fs n = .ok res → res.2 = n + ps.length := by
  intro ps
  induction ps with
  | nil =>
    intro fs n res h
    simp only [dxfLoop, Except.ok.injEq] at h
    subst h; simp
  | cons p ps ih =>
    intro fs n res h
    unfold dxfLoop at h
    split at h
    · simp at h
    · rename_i id hl
      split at h
      · simp at h
      · rename_i T hr
        have h2 := ih _ _ _ h
        simp [h2]; omega

theorem dxfLoop_ok_of {resolve : CrsResolve} {epsg : String} {T : Pt → Pt}
    (hr : resolve epsg = some T) :
    ∀ (ps : List Polyline) (fs : List Feature) (n : Nat),
      (∀ p ∈ ps, (layerTag p.layer).isSome = true) →
      dxfLoop resolve epsg ps fs n =
        .ok (fs ++ ps.map (dxfFeatureOf T), n + ps.length) := by
  intro ps
  induction ps with
  | nil => intro fs n _; simp [dxfLoop]
  | cons p ps ih =>
    intro fs n hall
    have hp := hall p (List.mem_cons_self _ _)
    cases hl : layerTag p.layer with
    | none => rw [hl] at hp; simp at hp
    | some id =>
      have hstep := ih
        (fs ++ [⟨id, closeIfOpen (dxfTransformVerts T p.vertices)⟩]) (n + 1)
        (fun q hq => hall q (List.mem_cons_of_mem _ hq))
      simp only [dxfLoop, hl, hr, hstep, Except.ok.injEq, Prod.mk.injEq]
      refine ⟨?_, by simp; omega⟩
      simp [dxfFeatureOf, hl]

theorem dxfLoop_ok_mem {resolve : CrsResolve} {epsg : String} :
    ∀ (ps : List Polyline) (fs : List Feature) (n : Nat)
      (res : List Feature × Nat),
      dxfLoop resolve epsg ps fs n = .ok res →
      ∀ f ∈ res.1, f ∈ fs ∨ ∃ p T, p ∈ ps ∧ resolve epsg = some T ∧
        f = ⟨(layerTag p.layer).getD "",
              closeIfOpen (dxfTransformVerts T p.vertices)⟩ := by
  intro ps
  induction ps with
  | nil =>
    intro fs n res h
    simp only [dxfLoop, Except.ok.injEq] at h
    subst h
    intro f hf
    exact Or.inl hf
  | cons p ps ih =>
    intro fs n res h
    unfold dxfLoop at h
    split at h
    · simp at h
    · rename_i id hl
      split at h
      · simp at h
      · rename_i T hr
        intro f hf
        rcases ih _ _ _ h f hf with hin | ⟨q, T2, hq, hr2, hfq⟩
        · rcases List.mem_append.mp hin with hin2 | hin2
          · exact Or.inl hin2
          · refine Or.inr ⟨p, T, List.mem_cons_self _ _, hr, ?_⟩
            simp only [List.mem_singleton] at hin2
            rw [hin2]
            simp [hl]
        · exact Or.inr ⟨q, T2, List.mem_cons_of_mem _ hq, hr2, hfq⟩

theorem dxf_ok_inv {resolve : CrsResolve} {dxf_file epsg : String}
    {ps : List Polyline} {out : DxfConv}
    (h : dxf_to_geojson resolve dxf_file epsg (.ok ps) = .ok out) :
    ∃ res, dxfLoop resolve epsg ps [] 0 = .ok res ∧
      out.features = res.1 ∧ out.fromCrsCalls = res.2 := by
  unfold dxf_to_geojson at h
  split at h
  · simp at h
  · simp at h
  · rename_i ps2 hps
    simp only [Except.ok.injEq] at hps
    subst hps
    split at h
    · simp at h
    · rename_i res hres
      simp only [Except.ok.injEq] at h
      subst h
      exact ⟨res, hres, rfl, rfl⟩

theorem getLast?_cons_eq_getLastD (h0 : Pt) (t : List Pt) :
    (h0 :: t).getLast? = some ((h0 :: t).getLastD h0) := by
  induction t generalizing h0 with
  | nil => rfl
  | cons h1 t ih => simpa [List.getLastD_cons] using ih h1

theorem closeIfOpen_head_last (l : List Pt) :
    (closeIfOpen l).head? = (closeIfOpen l).getLast? := by
  unfold closeIfOpen
  split
  · rfl
  · rename_i h0 t
    split
    · rename_i hlast
      rw [getLast?_cons_eq_getLastD h0 t, hlast]
      rfl
    · rw [List.getLast?_concat]
      rfl

theorem closedRing_head_last {w : List Pt} (hw : w ≠ []) :
    ((w ++ w.take 1).reverse).head? = ((w ++ w.take 1).reverse).getLast? := by
  cases w with
  | nil => exact absurd rfl hw
  | cons h0 t =>
    rw [List.head?_reverse, List.getLast?_reverse]
    rw [show (h0 :: t).take 1 = [h0] from rfl]
    rw [List.getLast?_concat]
    rfl

theorem closeIfOpen_take (l : List Pt) : (closeIfOpen l).take l.length = l := by
  unfold closeIfOpen
  split
  · rfl
  · rename_i h0 t
    split
    · exact List.take_length _
    · rw [List.take_append_of_le_length (le_refl _)]
      exact List.take_length _

theorem allNE_dictSet {d : Dict} {k : String} {v : List Pt}
    (h : AllNE d) (hv : v ≠ []) : AllNE (dictSet d k v) := by
  intro q hq
  rcases mem_dictSet hq with rfl | hq2
  · exact hv
  · exact h q hq2

theorem isSome_dictGet_dictSet (d : Dict) (k id : String) (v : List Pt)
    (h : id ≠ k → (dictGet d id).isSome = true) :
    (dictGet (dictSet d k v) id).isSome = true := by
  by_cases hik : id = k
  · subst hik; rw [dictGet_set_self]; rfl
  · rw [dictGet_set_ne d v hik]; exact h hik

theorem scan_main :
    ∀ (n : Nat) (rows : List Row) (st : ScanSt), rows.length ≤ n →
      validScan st.cur.isSome rows = true →
      AllNE st.cad → KeysFeat st → KeysCur st →
      ∃ st2, scanRows st rows = .ok st2 ∧
        st2.featIds = st.featIds ++ (rows.filter isMarkerRow).map loopIdOf ∧
        AllNE st2.cad ∧ KeysFeat st2 := by
  intro n
  induction n with
  | zero =>
    intro rows st hlen hv hne hkf _
    have hrows : rows = [] := List.eq_nil_of_length_eq_zero (Nat.le_zero.mp hlen)
    subst hrows
    exact ⟨st, rfl, by simp, hne, hkf⟩
  | succ n ih =>
    intro rows st hlen hv hne hkf hkc
    cases rows with
    | nil => exact ⟨st, rfl, by simp, hne, hkf⟩
    | cons r rs =>
      by_cases hm : isMarkerRow r = true
      · -- marker row: validity forces an immediately following vertex row
        simp only [validScan, hm, if_true, Bool.and_eq_true] at hv
        obtain ⟨hv1, hv2⟩ := hv
        cases rs with
        | nil => simp at hv1
        | cons r2 rs2 =>
          have hfm2 : isMarkerRow r2 = false := by simpa using hv1
          simp only [validScan, hfm2, Bool.if_false_left, Bool.and_eq_true] at hv2
          have hv2' : ((true && (pyFloat (fieldX r2)).isSome &&
              (pyFloat (fieldY r2)).isSome) && validScan true rs2) = true := by
            simpa [validScan, hfm2, Bool.and_eq_true] using hv2
          rw [Bool.and_eq_true] at hv2'
          obtain ⟨hv2a, hv3⟩ := hv2'
          rw [Bool.and_eq_true] at hv2a
          obtain ⟨hv2b, hy⟩ := hv2a
          rw [Bool.and_eq_true] at hv2b
          obtain ⟨-, hx⟩ := hv2b
          obtain ⟨x, hxx⟩ := Option.isSome_iff_exists.mp hx
          obtain ⟨y, hyy⟩ := Option.isSome_iff_exists.mp hy
          set lid := loopIdOf r with hlid
          have hsr1 : scanRow st r =
              .ok ⟨some lid, dictSet st.cad lid [], st.featIds ++ [lid]⟩ := by
            simp [scanRow, hm]
          have hsr2 :
              scanRow ⟨some lid, dictSet st.cad lid [], st.featIds ++ [lid]⟩ r2 =
              .ok ⟨some lid, dictSet st.cad lid [(x, y)],
                    st.featIds ++ [lid]⟩ := by
            simp [scanRow, hfm2, dictGet_set_self, hxx, hyy, dictSet_dictSet]
          have hlen2 : rs2.length ≤ n := by
            simp only [List.length_cons] at hlen; omega
          have hne2 : AllNE (dictSet st.cad lid [(x, y)]) :=
            allNE_dictSet hne (by simp)
          have hkf2 : KeysFeat ⟨some lid, dictSet st.cad lid [(x, y)],
              st.featIds ++ [lid]⟩ := by
            intro id hid
            rcases List.mem_append.mp hid with hold | hnew
            · exact isSome_dictGet_dictSet _ _ _ _ (fun _ => hkf id hold)
            · have : id = lid := by simpa using hnew
              subst this
              rw [dictGet_set_self]; rfl
          have hkc2 : KeysCur ⟨some lid, dictSet st.cad lid [(x, y)],
              st.featIds ++ [lid]⟩ := by
            intro k hk
            simp only at hk
            have : k = lid := by simpa using hk.symm
            subst this
            rw [dictGet_set_self]; rfl
          obtain ⟨st3, hrun, hfeat, hne3, hkf3⟩ :=
            ih rs2 ⟨some lid, dictSet st.cad lid [(x, y)], st.featIds ++ [lid]⟩
              hlen2 hv3 hne2 hkf2 hkc2
          refine ⟨st3, ?_, ?_, hne3, hkf3⟩
          · simp only [scanRows, hsr1, hsr2]
            exact hrun
          · rw [hfeat]
            simp [List.filter_cons, hm, hfm2, List.append_assoc]
      · -- vertex row: a marker must already have been seen
        have hfm : isMarkerRow r = false := by simpa using hm
        simp only [validScan, hfm, Bool.if_false_left, Bool.and_eq_true] at hv
        have hv' : ((st.cur.isSome && (pyFloat (fieldX r)).isSome &&
            (pyFloat (fieldY r)).isSome) && validScan st.cur.isSome rs) = true := by
          simpa [validScan, hfm, Bool.and_eq_true] using hv
        rw [Bool.and_eq_true] at hv'
        obtain ⟨hva, hvrest⟩ := hv'
        rw [Bool.and_eq_true] at hva
        obtain ⟨hvb, hy⟩ := hva
        rw [Bool.and_eq_true] at hvb
        obtain ⟨hseen, hx⟩ := hvb
        obtain ⟨k, hk⟩ := Option.isSome_iff_exists.mp hseen
        obtain ⟨x, hxx⟩ := Option.isSome_iff_exists.mp hx
        obtain ⟨y, hyy⟩ := Option.isSome_iff_exists.mp hy
        obtain ⟨v, hvk⟩ := Option.isSome_iff_exists.mp (hkc k hk)
        have hsr : scanRow st r =
            .ok ⟨some k, dictSet st.cad k (v ++ [(x, y)]), st.featIds⟩ := by
          simp [scanRow, hfm, hk, hvk, hxx, hyy]
        have hlen2 : rs.length ≤ n := by
          simp only [List.length_cons] at hlen; omega
        have hne2 : AllNE (dictSet st.cad k (v ++ [(x, y)])) :=
          allNE_dictSet hne (by simp)
        have hkf2 : KeysFeat ⟨some k, dictSet st.cad k (v ++ [(x, y)]),
            st.featIds⟩ := by
          intro id hid
          exact isSome_dictGet_dictSet _ _ _ _ (fun _ => hkf id hid)
        have hkc2 : KeysCur ⟨some k, dictSet st.cad k (v ++ [(x, y)]),
            st.featIds⟩ := by
          intro k2 hk2
          simp only at hk2
          have : k2 = k := by simpa using hk2.symm
          subst this
          rw [dictGet_set_self]; rfl
        have hvs2 : validScan (Option.isSome (some k)) rs = true := by
          rw [hk] at hvrest
          exact hvrest
        obtain ⟨st3, hrun, hfeat, hne3, hkf3⟩ :=
          ih rs ⟨some k, dictSet st.cad k (v ++ [(x, y)]), st.featIds⟩
            hlen2 hvs2 hne2 hkf2 hkc2
        refine ⟨st3, ?_, ?_, hne3, hkf3⟩
        · simp only [scanRows, hsr]
          exact hrun
        · rw [hfeat]
          simp [List.filter_cons, hfm]

theorem csv_main {resolve : CrsResolve} {T : Pt → Pt} {csv_file epsg : String}
    {lines : List Row}
    (hr : resolve epsg = some T)
    (hv : validScan false (csvScanned lines) = true) :
    ∃ out : Conv,
      csv_to_geojson resolve csv_file epsg lines = .ok out ∧
      out.features.map Feature.id =
        ((csvScanned lines).filter isMarkerRow).map loopIdOf ∧
      out.fromCrsCalls = 1 ∧
      ∀ f ∈ out.features, ∃ vs : List Pt, vs ≠ [] ∧
        f.ring = (csvTransformLoop T vs ++
          (csvTransformLoop T vs).take 1).reverse := by
  obtain ⟨st2, hscan, hfeat, hne2, hkf2⟩ :=
    scan_main (csvScanned lines).length (csvScanned lines) initSt (le_refl _)
      hv (by intro q hq; simp [initSt] at hq)
      (by intro id hid; simp [initSt] at hid)
      (by intro k hk; simp [initSt] at hk)
  have hneT : AllNE (transPhase T st2.cad) := by
    intro q hq
    obtain ⟨v, hv1, hv2⟩ := mem_mapVals hq
    rw [hv2]
    have := hne2 _ hv1
    simp only [csvTransformLoop, ne_eq, List.map_eq_nil_iff]
    simpa using this
  obtain ⟨closed, hclose⟩ := closePhase_ok_of_allNE hneT
  have hkeys : ∀ id ∈ st2.featIds,
      (dictGet (revPhase closed) id).isSome = true := by
    intro id hid
    rw [dictGet_revPhase, dictGet_closePhase hclose, dictGet_transPhase]
    have := hkf2 id hid
    cases hbase : dictGet st2.cad id with
    | none => rw [hbase] at this; simp at this
    | some vs => simp
  obtain ⟨fs, ha⟩ := assemble_ok_of_keys hkeys
  obtain ⟨hids, hrings⟩ := assemble_ok_mem ha
  refine ⟨⟨fs, fileBase csv_file ".csv" ++ ".json", 1⟩, ?_, ?_, rfl, ?_⟩
  · simp only [csv_to_geojson, hr, hscan, hclose, ha]
  · rw [hids, hfeat]
    simp [initSt]
  · intro f hf
    have hring := hrings f hf
    rw [dictGet_revPhase, dictGet_closePhase hclose, dictGet_transPhase] at hring
    cases hbase : dictGet st2.cad f.id with
    | none => rw [hbase] at hring; simp at hring
    | some vs =>
      rw [hbase] at hring
      simp only [Option.map_some', Option.some.injEq] at hring
      refine ⟨vs, ?_, ?_⟩
      · have := hne2 _ (dictGet_mem hbase)
        simpa using this
      · exact hring.symm

theorem csv_feats_ring_shape {resolve : CrsResolve} {csv_file epsg : String}
    {lines : List Row} :
    ∀ f ∈ featsOf (csv_to_geojson resolve csv_file epsg lines),
      ∃ T vs, resolve epsg = some T ∧ vs ≠ ([] : List Pt) ∧
        f.ring = (csvTransformLoop T vs ++
          (csvTransformLoop T vs).take 1).reverse := by
  intro f hf
  cases hres : csv_to_geojson resolve csv_file epsg lines with
  | error e => rw [hres] at hf; simp [featsOf] at hf
  | ok out =>
    rw [hres] at hf
    simp only [featsOf] at hf
    obtain ⟨T, st, closed, hr, hscan, hclose, ha, -⟩ := csv_ok_inv hres
    obtain ⟨-, hrings⟩ := assemble_ok_mem ha
    have hring := hrings f hf
    rw [dictGet_revPhase] at hring
    cases hc : dictGet closed f.id with
    | none => rw [hc] at hring; simp at hring
    | some w2 =>
      rw [hc] at hring
      simp only [Option.map_some', Option.some.injEq] at hring
      obtain ⟨w, hwne, hw2, hwmem⟩ := closePhase_ok_mem hclose _ (dictGet_mem hc)
      dsimp only at hw2 hwmem
      obtain ⟨vs, hvsmem, hvw⟩ := mem_mapVals hwmem
      dsimp only at hvsmem hvw
      refine ⟨T, vs, hr, ?_, ?_⟩
      · intro hnil
        apply hwne
        rw [hvw, hnil]
        rfl
      · rw [← hring, hw2, hvw]

theorem dxf_feats_ring_shape {resolve2 : CrsResolve} {dxf_file epsg2 : String}
    {ps : List Polyline} :
    ∀ f ∈ dxfFeatsOf (dxf_to_geojson resolve2 dxf_file epsg2 (.ok ps)),
      ∃ p T, p ∈ ps ∧ resolve2 epsg2 = some T ∧
        f.ring = closeIfOpen (dxfTransformVerts T p.vertices) := by
  intro f hf
  cases hres : dxf_to_geojson resolve2 dxf_file epsg2 (.ok ps) with
  | error e => rw [hres] at hf; simp [dxfFeatsOf] at hf
  | ok out =>
    rw [hres] at hf
    simp only [dxfFeatsOf] at hf
    obtain ⟨res, hloop, hfeats, -⟩ := dxf_ok_inv hres
    rw [hfeats] at hf
    rcases dxfLoop_ok_mem ps [] 0 res hloop f hf with hemp | ⟨p, T, hp, hr, hfeq⟩
    · simp at hemp
    · exact ⟨p, T, hp, hr, by rw [hfeq]⟩

/-- C1, counterexample: the claim defines a loop-start marker as a row whose
FIRST field contains `"# Object:"`, but the code tests every field of the row
(`df.iloc[i].str.contains(...).any()`).  On `c1Lines`, whose fourth data row
carries the marker text in its third field only, the spec-side count of
marker rows is 1 while the conversion emits 2 features, so the claimed
`N features for N first-field markers` is false. -/
theorem c1_counterexample :
    (featsOf (csv_to_geojson idResolve "test.csv" "32610" c1Lines)).length = 2 ∧
    ((csvScanned c1Lines).filter specFirstFieldMarker).length = 1 ∧
    (2 : Nat) ≠ 1 := by
  refine ⟨by decide, by decide, by decide⟩

/-- C1, amended: for every valid CSV input (every vertex row preceded by a
marker and numeric, every marker immediately followed by a vertex row), with
a marker row being one ANY of whose fields contains `"# Object:"`, the
conversion succeeds and the FeatureCollection has exactly one feature per
marker row, in marker order, whose `properties.id` is the text after the last
`/` of that row's first (X) field, each with a non-empty coordinate ring. -/
theorem c1_marker_features {resolve : CrsResolve} {T : Pt → Pt}
    {csv_file epsg : String} {lines : List Row}
    (hr : resolve epsg = some T)
    (hv : validScan false (csvScanned lines) = true) :
    ∃ out : Conv,
      csv_to_geojson resolve csv_file epsg lines = .ok out ∧
      out.features.length = ((csvScanned lines).filter isMarkerRow).length ∧
      out.features.map Feature.id =
        ((csvScanned lines).filter isMarkerRow).map loopIdOf ∧
      ∀ f ∈ out.features, f.ring ≠ [] := by
  obtain ⟨out, h1, h2, h3, h4⟩ := @csv_main resolve T csv_file epsg lines hr hv
  refine ⟨out, h1, ?_, h2, ?_⟩
  · have := congrArg List.length h2
    simpa using this
  · intro f hf
    obtain ⟨vs, hvs, hring⟩ := h4 f hf
    rw [hring]
    simp [csvTransformLoop, hvs]

/-- Witness for C1 (amended) at the concrete file `wLines`. -/
theorem c1_marker_features_witness :
    ∃ out : Conv,
      csv_to_geojson idResolve "test.csv" "32610" wLines = .ok out ∧
      out.features.length = ((csvScanned wLines).filter isMarkerRow).length ∧
      out.features.map Feature.id =
        ((csvScanned wLines).filter isMarkerRow).map loopIdOf ∧
      ∀ f ∈ out.features, f.ring ≠ [] :=
  @c1_marker_features idResolve (fun p => p) "test.csv" "32610" wLines rfl (by decide)

/-- C2: the reprojection step is a same-length, order-preserving map on both
the CSV path (authority axis order plus an explicit swap to `[lng, lat]`) and
the DXF path (`always_xy=True`), and both produce the pair in
(longitude, latitude) order — `(T p).1` is the latitude and `(T p).2` the
longitude of the authority-order transform for target EPSG:4326 — even
though the two underlying transform calls use different internal axis
orders. -/
theorem c2_axis_order (T : Pt → Pt) (pts : List Pt) :
    csvTransformLoop T pts = dxfTransformVerts T pts ∧
    (csvTransformLoop T pts).length = pts.length ∧
    (dxfTransformVerts T pts).length = pts.length ∧
    ∀ i : Nat,
      (csvTransformLoop T pts)[i]? =
        (pts[i]?).map (fun p => ((T p).2, (T p).1)) ∧
      (dxfTransformVerts T pts)[i]? =
        (pts[i]?).map (fun p => ((T p).2, (T p).1)) := by
  refine ⟨rfl, by simp [csvTransformLoop], by simp [dxfTransformVerts], ?_⟩
  intro i
  constructor
  · simp [csvTransformLoop, transformAuthority, List.getElem?_map]
  · simp [dxfTransformVerts, transformAlwaysXY, List.getElem?_map]

/-- C3, counterexample: on a DXF document with two polylines the transformer
is constructed once per polyline — the completed conversion reports 2
`Transformer.from_crs` calls, not the single construction the claim
requires. -/
theorem c3_counterexample :
    dxfCalls? (dxf_to_geojson idResolve "test.dxf" "32610"
      (.ok [c3Poly1, c3Poly2])) = some 2 ∧ (2 : Nat) ≠ 1 := by
  refine ⟨by decide, by decide⟩

/-- C3, amended: every completed CSV conversion constructs the
source-CRS-to-WGS84 transformer exactly once per call, while every completed
DXF conversion constructs it once per polyline entity (so `ps.length` times,
not once per call). -/
theorem c3_from_crs_calls (resolve : CrsResolve) (csv_file epsg : String)
    (lines : List Row) (resolve2 : CrsResolve) (dxf_file epsg2 : String)
    (ps : List Polyline) :
    (csvCalls? (csv_to_geojson resolve csv_file epsg lines) = none ∨
      csvCalls? (csv_to_geojson resolve csv_file epsg lines) = some 1) ∧
    (dxfCalls? (dxf_to_geojson resolve2 dxf_file epsg2 (.ok ps)) = none ∨
      dxfCalls? (dxf_to_geojson resolve2 dxf_file epsg2 (.ok ps)) =
        some ps.length) := by
  constructor
  · cases hres : csv_to_geojson resolve csv_file epsg lines with
    | error e => left; rfl
    | ok out =>
      right
      obtain ⟨T, st, closed, -, -, -, -, hcalls⟩ := csv_ok_inv hres
      simp [csvCalls?, hcalls]
  · cases hres : dxf_to_geojson resolve2 dxf_file epsg2 (.ok ps) with
    | error e => left; rfl
    | ok out =>
      right
      obtain ⟨res, hloop, -, hcalls⟩ := dxf_ok_inv hres
      have hcount := dxfLoop_ok_count ps [] 0 res hloop
      simp [dxfCalls?, hcalls, hcount]

/-- C4: every ring emitted on the CSV path is the full reversal of the
reprojected loop vertices with the closing vertex appended (so it traverses
opposite to the input order), while every ring emitted on the DXF path keeps
the polyline's entity-defined vertex order unreversed: its first
`vertices.length` entries are exactly the reprojected vertices in entity
order, the only possible addition being the geo proxy's closing vertex. -/
theorem c4_winding (resolve : CrsResolve) (csv_file epsg : String)
    (lines : List Row) (resolve2 : CrsResolve) (dxf_file epsg2 : String)
    (ps : List Polyline) :
    (∀ f ∈ featsOf (csv_to_geojson resolve csv_file epsg lines),
      ∃ T vs, resolve epsg = some T ∧ vs ≠ ([] : List Pt) ∧
        f.ring = (csvTransformLoop T vs ++
          (csvTransformLoop T vs).take 1).reverse) ∧
    (∀ f ∈ dxfFeatsOf (dxf_to_geojson resolve2 dxf_file epsg2 (.ok ps)),
      ∃ p T, p ∈ ps ∧ resolve2 epsg2 = some T ∧
        f.ring = closeIfOpen (dxfTransformVerts T p.vertices) ∧
        f.ring.take (dxfTransformVerts T p.vertices).length =
          dxfTransformVerts T p.vertices) := by
  constructor
  · exact csv_feats_ring_shape
  · intro f hf
    obtain ⟨p, T, hp, hr, hring⟩ := dxf_feats_ring_shape f hf
    refine ⟨p, T, hp, hr, hring, ?_⟩
    rw [hring]
    exact closeIfOpen_take _

/-- C5: a vertex row before any marker row makes the conversion fail with
the `NameError` the spec classes as MalformedInput, and a vertex row with a
non-numeric X or Y field makes it fail with a `ValueError` of the same
class; in both cases no output file is written. -/
theorem c5_malformed {resolve : CrsResolve} {T : Pt → Pt}
    {csv_file epsg : String} {lines : List Row}
    (hr : resolve epsg = some T) :
    (∀ r rs, csvScanned lines = r :: rs → isMarkerRow r = false →
      csv_to_geojson resolve csv_file epsg lines = .error .nameError ∧
      isMalformedInput .nameError = true ∧
      csvWrites (csv_to_geojson resolve csv_file epsg lines) = []) ∧
    (∀ pre r post st k v, csvScanned lines = pre ++ r :: post →
      scanRows initSt pre = .ok st → st.cur = some k →
      dictGet st.cad k = some v → isMarkerRow r = false →
      (pyFloat (fieldX r) = none ∨ pyFloat (fieldY r) = none) →
      csv_to_geojson resolve csv_file epsg lines = .error .valueError ∧
      isMalformedInput .valueError = true ∧
      csvWrites (csv_to_geojson resolve csv_file epsg lines) = []) := by
  constructor
  · intro r rs hsc hfm
    have herr : scanRows initSt (csvScanned lines) = .error .nameError := by
      rw [hsc]
      simp [scanRows, scanRow, hfm, initSt]
    have hmain : csv_to_geojson resolve csv_file epsg lines =
        .error .nameError := by
      simp only [csv_to_geojson, hr, herr]
    exact ⟨hmain, rfl, by rw [hmain]; rfl⟩
  · intro pre r post st k v hsc hpre hcur hget hfm hbad
    have hrow : scanRow st r = .error .valueError := by
      rcases hbad with hb | hb
      · simp [scanRow, hfm, hcur, hget, hb]
      · cases hxv : pyFloat (fieldX r) with
        | none => simp [scanRow, hfm, hcur, hget, hxv]
        | some x => simp [scanRow, hfm, hcur, hget, hxv, hb]
    have herr : scanRows initSt (csvScanned lines) = .error .valueError := by
      rw [hsc, scanRows_append, hpre]
      simp [scanRows, hrow]
    have hmain : csv_to_geojson resolve csv_file epsg lines =
        .error .valueError := by
      simp only [csv_to_geojson, hr, herr]
    exact ⟨hmain, rfl, by rw [hmain]; rfl⟩

/-- Witness for C5 at the concrete files `c5LinesA` (vertex before marker)
and `c5LinesB` (non-numeric X field). -/
theorem c5_malformed_witness :
    (csv_to_geojson idResolve "test.csv" "32610" c5LinesA =
        .error .nameError ∧
      csvWrites (csv_to_geojson idResolve "test.csv" "32610" c5LinesA) = []) ∧
    (csv_to_geojson idResolve "test.csv" "32610" c5LinesB =
        .error .valueError ∧
      csvWrites (csv_to_geojson idResolve "test.csv" "32610" c5LinesB) = []) := by
  constructor
  · have h := (@c5_malformed idResolve (fun p => p) "test.csv" "32610"
        c5LinesA rfl).1
      ["1", "2", "0", "0", "0", "0"] [["3", "4", "0", "0", "0", "0"]]
      (by decide) (by decide)
    exact ⟨h.1, h.2.2⟩
  · have h := (@c5_malformed idResolve (fun p => p) "test.csv" "32610"
        c5LinesB rfl).2
      [["# Object: path/Loop1", "0", "0", "0", "0", "0"]]
      ["x", "2", "0", "0", "0", "0"] []
      ⟨some "Loop1", [("Loop1", [])], ["Loop1"]⟩ "Loop1" []
      (by decide) rfl rfl (by decide) (by decide) (Or.inl (by decide))
    exact ⟨h.1, h.2.2⟩

/-- C6: when the source CRS identifier does not resolve, the conversion
fails with the `CRSError` the spec calls InvalidCRS — raised by the
transformer construction before any row is processed — and no output file is
written, so the output-file state is unchanged. -/
theorem c6_invalid_crs {resolve : CrsResolve} {csv_file epsg : String}
    {lines : List Row} (hr : resolve epsg = none) :
    csv_to_geojson resolve csv_file epsg lines = .error .crsError ∧
    csvWrites (csv_to_geojson resolve csv_file epsg lines) = [] := by
  have hmain : csv_to_geojson resolve csv_file epsg lines =
      .error .crsError := by
    simp only [csv_to_geojson, hr]
  exact ⟨hmain, by rw [hmain]; rfl⟩

/-- Witness for C6 with the unresolvable identifier `"not-a-code"`. -/
theorem c6_invalid_crs_witness :
    csv_to_geojson noResolve "test.csv" "not-a-code" wLines =
        .error .crsError ∧
    csvWrites (csv_to_geojson noResolve "test.csv" "not-a-code" wLines) = [] :=
  c6_invalid_crs rfl

/-- C7: the two DXF read failures are reported as two distinguishable typed
outcomes — `sys.exit(1)` for "not a drawing file / generic I/O failure" and
`sys.exit(2)` for "structurally corrupt drawing" — and the conversion
function is total on these inputs, returning the typed error rather than
crashing. -/
theorem c7_dxf_read_errors (resolve : CrsResolve) (dxf_file epsg : String) :
    dxf_to_geojson resolve dxf_file epsg (.error .ioError) =
        .error (.exit 1) ∧
    dxf_to_geojson resolve dxf_file epsg (.error .structureError) =
        .error (.exit 2) ∧
    DxfErr.exit 1 ≠ DxfErr.exit 2 :=
  ⟨rfl, rfl, by decide⟩

/-- C8: every ring present in an emitted FeatureCollection — from the CSV
path or the DXF path — has its first vertex equal to its last vertex. -/
theorem c8_ring_closure (resolve : CrsResolve) (csv_file epsg : String)
    (lines : List Row) (resolve2 : CrsResolve) (dxf_file epsg2 : String)
    (ps : List Polyline) :
    (∀ f ∈ featsOf (csv_to_geojson resolve csv_file epsg lines),
      f.ring.head? = f.ring.getLast?) ∧
    (∀ f ∈ dxfFeatsOf (dxf_to_geojson resolve2 dxf_file epsg2 (.ok ps)),
      f.ring.head? = f.ring.getLast?) := by
  constructor
  · intro f hf
    obtain ⟨T, vs, -, hvs, hring⟩ := csv_feats_ring_shape f hf
    rw [hring]
    apply closedRing_head_last
    simp [csvTransformLoop, hvs]
  · intro f hf
    obtain ⟨p, T, -, -, hring⟩ := dxf_feats_ring_shape f hf
    rw [hring]
    exact closeIfOpen_head_last _

/-- C9: on a loop vertex list of length `k ≥ 1` (written `p :: t`), the
closing step unconditionally appends a copy of the first vertex — also when
the list already ends with a vertex equal to the first — so the normalized
ring has length exactly `k + 1`. -/
theorem c9_close_appends (p : Pt) (t : List Pt) :
    closeLoop (p :: t) = .ok ((p :: t) ++ [p]) ∧
    ((p :: t) ++ [p]).length = (p :: t).length + 1 :=
  ⟨rfl, by simp⟩

/-- C10: the CSV row scan never examines the first physical line (consumed
as the column header) and skips the final data row: for a file of `M`
physical lines, exactly the lines `2 .. M-1` (0-based `lines[i+1]` for
`i < M-2`) are classified as marker or vertex rows. -/
theorem c10_scan_window (lines : List Row) :
    (csvScanned lines).length = lines.length - 2 ∧
    ∀ i : Nat, (csvScanned lines)[i]? =
      if i < lines.length - 2 then lines[i + 1]? else none := by
  constructor
  · simp only [csvScanned, List.length_take, List.length_drop]
    omega
  · intro i
    simp only [csvScanned]
    rw [List.getElem?_take]
    have hb : (lines.drop 1).length - 1 = lines.length - 2 := by
      simp only [List.length_drop]
      omega
    rw [hb, List.getElem?_drop]
    have hadd : 1 + i = i + 1 := Nat.add_comm 1 i
    rw [hadd]

/-- Witness for C4 at the concrete CSV file `wLines` and a concrete
two-polyline DXF document. -/
theorem c4_winding_witness :
    (∀ f ∈ featsOf (csv_to_geojson idResolve "test.csv" "32610" wLines),
      ∃ T vs, idResolve "32610" = some T ∧ vs ≠ ([] : List Pt) ∧
        f.ring = (csvTransformLoop T vs ++
          (csvTransformLoop T vs).take 1).reverse) ∧
    (∀ f ∈ dxfFeatsOf (dxf_to_geojson idResolve "test.dxf" "32610"
        (.ok [c3Poly1, c3Poly2])),
      ∃ p T, p ∈ [c3Poly1, c3Poly2] ∧ idResolve "32610" = some T ∧
        f.ring = closeIfOpen (dxfTransformVerts T p.vertices) ∧
        f.ring.take (dxfTransformVerts T p.vertices).length =
          dxfTransformVerts T p.vertices) :=
  c4_winding idResolve "test.csv" "32610" wLines idResolve "test.dxf" "32610"
    [c3Poly1, c3Poly2]

/-- Witness for C8 at the concrete CSV file `wLines` and a concrete
two-polyline DXF document. -/
theorem c8_ring_closure_witness :
    (∀ f ∈ featsOf (csv_to_geojson idResolve "test.csv" "32610" wLines),
      f.ring.head? = f.ring.getLast?) ∧
    (∀ f ∈ dxfFeatsOf (dxf_to_geojson idResolve "test.dxf" "32610"
        (.ok [c3Poly1, c3Poly2])),
      f.ring.head? = f.ring.getLast?) :=
  c8_ring_closure idResolve "test.csv" "32610" wLines idResolve "test.dxf"
    "32610" [c3Poly1, c3Poly2]
